import Mathlib

/-!
Verification of the LetterLegend session/matchmaking core.

The definitions below are a shallow embedding of the backend server
(`src/apps/backend/src/server.rs`) and of the tile-placement controller
(`src/apps/backend/src/controller/game/set_tile.rs`).  Shared mutable maps
(`HashMap`, `PriorityQueue`) are modelled as association lists keyed by the
`u32` identity (a `Nat` here); the tokio mutexes serialize every handler, so
each handler is a pure state transformer `ServerState → ServerState × result`.
Components of the repository that are not part of the provided sources
(the `Lobby`/`Lobbies` aggregates, the timeout sweep, the rules service)
are modelled from the specification; each such definition carries a doc
comment saying so.
-/

namespace LetterLegend

/-- Association-list lookup keyed by `Nat`, mirroring `HashMap::get`. -/
def findA {α : Type} (k : Nat) : List (Nat × α) → Option α
  | [] => none
  | (k', v) :: rest => if k' = k then some v else findA k rest

/-- Association-list insert-or-replace, mirroring `HashMap::insert` and
`PriorityQueue::push` (both replace the entry when the key is present). -/
def insertA {α : Type} (k : Nat) (v : α) : List (Nat × α) → List (Nat × α)
  | [] => [(k, v)]
  | (k', v') :: rest =>
    if k' = k then (k, v) :: rest else (k', v') :: insertA k v rest

/-- Association-list removal, mirroring `HashMap::remove` and
`PriorityQueue::remove`. -/
def eraseA {α : Type} (k : Nat) : List (Nat × α) → List (Nat × α)
  | [] => []
  | e :: rest => if e.1 = k then eraseA k rest else e :: eraseA k rest

/-- Update the value stored at key `k` (first occurrence), mirroring mutation
through a locked reference obtained from the map. -/
def updateA {α : Type} (k : Nat) (f : α → α) : List (Nat × α) → List (Nat × α)
  | [] => []
  | (k', v) :: rest =>
    if k' = k then (k', f v) :: rest else (k', v) :: updateA k f rest

/-- Apply the same per-record update at every key in `ids`. -/
def applyAll {α : Type} (f : α → α) (ids : List Nat) (l : List (Nat × α)) :
    List (Nat × α) :=
  ids.foldl (fun acc k => updateA k f acc) l

theorem findA_insertA_self {α : Type} (k : Nat) (v : α) (l : List (Nat × α)) :
    findA k (insertA k v l) = some v := by
  induction l with
  | nil => simp [insertA, findA]
  | cons e rest ih =>
    obtain ⟨k', v'⟩ := e
    by_cases h : k' = k
    · simp [insertA, h, findA]
    · simp [insertA, h, findA, ih]

theorem findA_insertA_ne {α : Type} {k k' : Nat} (h : k' ≠ k) (v : α)
    (l : List (Nat × α)) : findA k (insertA k' v l) = findA k l := by
  induction l with
  | nil => simp [insertA, findA, h]
  | cons e rest ih =>
    obtain ⟨k₀, v₀⟩ := e
    by_cases h0 : k₀ = k'
    · subst h0
      simp [insertA, findA, h]
    · simp [insertA, h0, findA, ih]

theorem findA_eraseA_self {α : Type} (k : Nat) (l : List (Nat × α)) :
    findA k (eraseA k l) = none := by
  induction l with
  | nil => simp [eraseA, findA]
  | cons e rest ih =>
    obtain ⟨k', v'⟩ := e
    by_cases h : k' = k
    · simpa [eraseA, h] using ih
    · simpa [eraseA, h, findA] using ih

theorem findA_eraseA_ne {α : Type} {k k' : Nat} (h : k ≠ k')
    (l : List (Nat × α)) : findA k (eraseA k' l) = findA k l := by
  induction l with
  | nil => simp [eraseA, findA]
  | cons e rest ih =>
    obtain ⟨k₀, v₀⟩ := e
    by_cases h0 : k₀ = k'
    · subst h0
      have hne : ¬ k₀ = k := fun hc => h (hc ▸ rfl)
      simp [eraseA, findA, hne, ih]
    · by_cases h1 : k₀ = k
      · simp [eraseA, h0, h1, findA, ih, h]
      · simp [eraseA, h0, h1, findA, ih]

theorem findA_updateA_self {α : Type} (k : Nat) (f : α → α)
    (l : List (Nat × α)) : findA k (updateA k f l) = (findA k l).map f := by
  induction l with
  | nil => simp [updateA, findA]
  | cons e rest ih =>
    obtain ⟨k', v'⟩ := e
    by_cases h : k' = k
    · simp [updateA, h, findA]
    · simp [updateA, h, findA, ih]

theorem findA_updateA_ne {α : Type} {k k' : Nat} (h : k ≠ k') (f : α → α)
    (l : List (Nat × α)) : findA k (updateA k' f l) = findA k l := by
  induction l with
  | nil => simp [updateA, findA]
  | cons e rest ih =>
    obtain ⟨k₀, v₀⟩ := e
    by_cases h0 : k₀ = k'
    · subst h0
      have hne : ¬ k₀ = k := fun hc => h (hc ▸ rfl)
      simp [updateA, findA, hne, ih]
    · simp [updateA, h0, findA, ih]

theorem findA_mem {α : Type} {k : Nat} {v : α} {l : List (Nat × α)}
    (h : findA k l = some v) : (k, v) ∈ l := by
  induction l with
  | nil => simp [findA] at h
  | cons e rest ih =>
    obtain ⟨k', v'⟩ := e
    by_cases h0 : k' = k
    · subst h0
      simp [findA] at h
      subst h
      exact List.mem_cons_self _ _
    · simp [findA, h0] at h
      exact List.mem_cons_of_mem _ (ih h)

theorem mem_insertA {α : Type} {e : Nat × α} {k : Nat} {v : α}
    {l : List (Nat × α)} (h : e ∈ insertA k v l) : e = (k, v) ∨ e ∈ l := by
  induction l with
  | nil => simpa [insertA] using h
  | cons e0 rest ih =>
    obtain ⟨k₀, v₀⟩ := e0
    by_cases h0 : k₀ = k
    · simp only [insertA, h0, if_pos rfl] at h
      rcases List.mem_cons.1 h with h1 | h1
      · exact Or.inl h1
      · exact Or.inr (List.mem_cons_of_mem _ h1)
    · simp only [insertA, h0, if_neg h0] at h
      rcases List.mem_cons.1 h with h1 | h1
      · exact Or.inr (h1 ▸ List.mem_cons_self _ _)
      · rcases ih h1 with h2 | h2
        · exact Or.inl h2
        · exact Or.inr (List.mem_cons_of_mem _ h2)

theorem mem_updateA {α : Type} {e : Nat × α} {k : Nat} {f : α → α}
    {l : List (Nat × α)} (h : e ∈ updateA k f l) :
    e ∈ l ∨ ∃ v, (k, v) ∈ l ∧ e = (k, f v) := by
  induction l with
  | nil => simpa [updateA] using h
  | cons e0 rest ih =>
    obtain ⟨k₀, v₀⟩ := e0
    by_cases h0 : k₀ = k
    · subst h0
      simp only [updateA, if_pos rfl] at h
      rcases List.mem_cons.1 h with h1 | h1
      · exact Or.inr ⟨v₀, List.mem_cons_self _ _, h1⟩
      · exact Or.inl (List.mem_cons_of_mem _ h1)
    · simp only [updateA, if_neg h0] at h
      rcases List.mem_cons.1 h with h1 | h1
      · exact Or.inl (h1 ▸ List.mem_cons_self _ _)
      · rcases ih h1 with h2 | h2
        · exact Or.inl (List.mem_cons_of_mem _ h2)
        · obtain ⟨v, hv, he⟩ := h2
          exact Or.inr ⟨v, List.mem_cons_of_mem _ hv, he⟩

theorem mem_eraseA {α : Type} {e : Nat × α} {k : Nat} {l : List (Nat × α)}
    (h : e ∈ eraseA k l) : e ∈ l := by
  induction l with
  | nil => simpa [eraseA] using h
  | cons e0 rest ih =>
    by_cases h0 : e0.1 = k
    · simp only [eraseA, if_pos h0] at h
      exact List.mem_cons_of_mem _ (ih h)
    · simp only [eraseA, if_neg h0] at h
      rcases List.mem_cons.1 h with h1 | h1
      · exact h1 ▸ List.mem_cons_self _ _
      · exact List.mem_cons_of_mem _ (ih h1)

/-- The player record of `player.rs` as used by `server.rs`: identity, display
name, optional lobby membership and optional game membership. -/
structure Player where
  id : Nat
  name : String
  lobby_id : Option Nat
  game_id : Option Nat
deriving DecidableEq

/-- A lobby aggregate.  Modelled from the spec: `{lobby_id, capacity, ordered
list of member identities, per-member readiness flag}` (§3); the `lobby.rs`
source is not among the provided files.  A member is a pair of identity and
readiness flag. -/
structure Lobby where
  id : Nat
  capacity : Nat
  members : List (Nat × Bool)
deriving DecidableEq

/-- The lobby registry (`Lobbies`).  Modelled from the spec: `create`
allocates a fresh identity and an empty member list (§4.3); ids are allocated
sequentially (the tests of `server.rs` observe the first created lobby at
id 0). -/
structure Lobbies where
  next_id : Nat
  map : List (Nat × Lobby)
deriving DecidableEq

/-- The shared state owned by `Server` (`server.rs` lines 19–27):
`online_player_map`, `player_timeout_queue` (identity ↦ last-heartbeat
instant, time is a `Nat`), `lobbies`, and `game_map` (game id ↦ participant
identities).  `next_game_id` is the game-id allocator of the game registry
(modelled from the spec, §4.4). -/
structure ServerState where
  players : List (Nat × Player)
  timeouts : List (Nat × Nat)
  lobbies : Lobbies
  games : List (Nat × List Nat)
  next_game_id : Nat
deriving DecidableEq

/-- Default lobby capacity.  Modelled from the spec: the capacity default is
a configuration value (§6); the repository's tests create lobbies with
capacity 4. -/
def defaultCapacity : Nat := 4

/-- Minimum member count for starting a game.  Modelled from the spec:
`start` fails with `InsufficientPlayers` below the minimum (§4.4); a game
needs at least two players. -/
def minPlayers : Nat := 2

inductive ConnectRes
  | ok
  | alreadyConnected
deriving DecidableEq

inductive DisOutcome
  | ok
  | notFound
  | panicked
deriving DecidableEq

inductive HeartbeatRes
  | ok
  | notFound
deriving DecidableEq

inductive LobbyRes
  | ok
  | playerNotFound
  | lobbyNotFound
  | notInLobby
  | full
  | alreadyMember
deriving DecidableEq

inductive StartRes
  | ok
  | playerNotFound
  | notInLobby
  | lobbyNotFound
  | insufficientPlayers
  | notAllReady
deriving DecidableEq

/-- `Server::connect` (`server.rs` lines 139–165): fail if the identity is
already in `online_player_map`; otherwise insert a fresh `Player` and push
the identity with the current instant onto `player_timeout_queue`. -/
def connectFn (s : ServerState) (cid : Nat) (name : String) (now : Nat) :
    ServerState × ConnectRes :=
  if (findA cid s.players).isSome then (s, .alreadyConnected)
  else
    ({ s with
        players := insertA cid ⟨cid, name, none, none⟩ s.players,
        timeouts := insertA cid now s.timeouts }, .ok)

/-- `Lobby::add_player`.  Modelled from the spec:
`add_member(player) -> Ok | Full | AlreadyMember` (§4.3); on success the
player is appended to the member list (initially not ready) and the player's
lobby membership is set, maintaining invariant (b). -/
def addPlayerToLobby (s : ServerState) (lid : Nat) (lob : Lobby) (cid : Nat) :
    ServerState × LobbyRes :=
  if lob.capacity ≤ lob.members.length then (s, .full)
  else if lob.members.any (fun e => e.1 == cid) then (s, .alreadyMember)
  else
    ({ s with
        lobbies :=
          { s.lobbies with
              map := insertA lid
                { lob with members := lob.members ++ [(cid, false)] }
                s.lobbies.map },
        players :=
          updateA cid (fun p => { p with lobby_id := some lid }) s.players },
      .ok)

/-- `Lobby::remove_player`.  Modelled from the spec:
`remove_member(identity) -> Ok | NotMember`; removing the last member
triggers the registry `destroy` of the lobby (§4.3), and the player's lobby
membership is cleared, maintaining invariant (b). -/
def removeMemberFromLobby (s : ServerState) (lid : Nat) (lob : Lobby)
    (cid : Nat) : ServerState :=
  let members' := lob.members.filter (fun e => !(e.1 == cid))
  let lmap :=
    if members'.isEmpty then eraseA lid s.lobbies.map
    else insertA lid { lob with members := members' } s.lobbies.map
  { s with
      lobbies := { s.lobbies with map := lmap },
      players :=
        updateA cid (fun p => { p with lobby_id := none }) s.players }

/-- The game-participant branch of `Server::disconnect` (`server.rs` lines
183–186): if the player's `game_id` is set, index `game_map` with it (a
panic when the key is absent) and retain every participant other than the
disconnecting identity. -/
def disconnectGame (s : ServerState) (p : Player) (cid : Nat) :
    ServerState × DisOutcome :=
  match p.game_id with
  | none => (s, .ok)
  | some gid =>
    match findA gid s.games with
    | none => (s, .panicked)
    | some parts =>
      ({ s with
          games := insertA gid (parts.filter (fun x => !(x == cid))) s.games },
        .ok)

/-- `Server::disconnect` (`server.rs` lines 167–191): remove the player from
`online_player_map` (absent ⇒ `Err("Player not found")`), remove its timeout
entry, then — if lobby membership is set — `get_lobby(..).unwrap()` (a panic
when the lobby id is absent) and remove the player from the lobby, then the
game branch. -/
def disconnectFn (s : ServerState) (cid : Nat) : ServerState × DisOutcome :=
  match findA cid s.players with
  | none => (s, .notFound)
  | some p =>
    let s1 :=
      { s with players := eraseA cid s.players, timeouts := eraseA cid s.timeouts }
    match p.lobby_id with
    | none => disconnectGame s1 p cid
    | some lid =>
      match findA lid s1.lobbies.map with
      | none => (s1, .panicked)
      | some lob => disconnectGame (removeMemberFromLobby s1 lid lob cid) p cid

/-- `Server::heartbeat` (`server.rs` lines 193–203): `change_priority` on the
timeout queue — refresh the entry when present, `Err` otherwise. -/
def heartbeatFn (s : ServerState) (cid : Nat) (now : Nat) :
    ServerState × HeartbeatRes :=
  if (findA cid s.timeouts).isSome then
    ({ s with timeouts := insertA cid now s.timeouts }, .ok)
  else (s, .notFound)

/-- `Server::create_lobby` (`server.rs` lines 205–225): the lobby registry
creates a fresh empty lobby FIRST; only then is the caller looked up in
`online_player_map`, and on a missing player the handler returns an error
without removing the lobby it just created. -/
def createLobbyFn (s : ServerState) (cid : Nat) : ServerState × LobbyRes :=
  let lid := s.lobbies.next_id
  let lob : Lobby := ⟨lid, defaultCapacity, []⟩
  let s1 := { s with lobbies := ⟨lid + 1, insertA lid lob s.lobbies.map⟩ }
  match findA cid s1.players with
  | none => (s1, .playerNotFound)
  | some _ => addPlayerToLobby s1 lid lob cid

/-- `Server::join_lobby` (`server.rs` lines 227–256): look up the lobby
(absent ⇒ `Err`), then the player (absent ⇒ `Err`), then `add_player`. -/
def joinLobbyFn (s : ServerState) (cid : Nat) (lid : Nat) :
    ServerState × LobbyRes :=
  match findA lid s.lobbies.map with
  | none => (s, .lobbyNotFound)
  | some lob =>
    match findA cid s.players with
    | none => (s, .playerNotFound)
    | some _ => addPlayerToLobby s lid lob cid

/-- `Server::quit_lobby` (`server.rs` lines 258–286): player lookup, then the
player's `lobby_id`, then the lobby lookup — each absence is an error (this
path, unlike `disconnect`, does NOT panic on a dangling lobby id) — then
`remove_player`. -/
def quitLobbyFn (s : ServerState) (cid : Nat) : ServerState × LobbyRes :=
  match findA cid s.players with
  | none => (s, .playerNotFound)
  | some p =>
    match p.lobby_id with
    | none => (s, .notInLobby)
    | some lid =>
      match findA lid s.lobbies.map with
      | none => (s, .lobbyNotFound)
      | some lob => (removeMemberFromLobby s lid lob cid, .ok)

/-- `Lobby::set_ready`.  Modelled from the spec:
`set_ready(identity, flag) -> Ok | NotMember` (§4.3); the handler resolves
the caller's lobby and sets its readiness flag to `true`. -/
def setReadyFn (s : ServerState) (cid : Nat) : ServerState × LobbyRes :=
  match findA cid s.players with
  | none => (s, .playerNotFound)
  | some p =>
    match p.lobby_id with
    | none => (s, .notInLobby)
    | some lid =>
      match findA lid s.lobbies.map with
      | none => (s, .lobbyNotFound)
      | some lob =>
        ({ s with
            lobbies :=
              { s.lobbies with
                  map := insertA lid
                    { lob with
                        members := lob.members.map
                          (fun e => if e.1 = cid then (e.1, true) else e) }
                    s.lobbies.map } }, .ok)

/-- The membership transfer applied to each member when a lobby becomes a
game.  Modelled from the spec: `start` "transfers every lobby member's
membership from Lobby to Game atomically" (§4.4). -/
def setInGame (gid : Nat) (p : Player) : Player :=
  { p with lobby_id := none, game_id := some gid }

/-- Game start.  Modelled from the spec (§4.4):
`start(lobby) -> Game | NotAllReady | InsufficientPlayers`; once every member
is ready and the member count meets the minimum, every lobby member's
membership moves from Lobby to Game and the Lobby is retired.  The caller is
resolved to its lobby as in the other handlers. -/
def startGameFn (s : ServerState) (cid : Nat) : ServerState × StartRes :=
  match findA cid s.players with
  | none => (s, .playerNotFound)
  | some p =>
    match p.lobby_id with
    | none => (s, .notInLobby)
    | some lid =>
      match findA lid s.lobbies.map with
      | none => (s, .lobbyNotFound)
      | some lob =>
        if lob.members.length < minPlayers then (s, .insufficientPlayers)
        else if !(lob.members.all (fun e => e.2)) then (s, .notAllReady)
        else
          let gid := s.next_game_id
          let ids := lob.members.map Prod.fst
          ({ s with
              players := applyAll (setInGame gid) ids s.players,
              lobbies := { s.lobbies with map := eraseA lid s.lobbies.map },
              games := insertA gid ids s.games,
              next_game_id := gid + 1 }, .ok)

/-- The operations of the session/matchmaking core that mutate membership
state (§8 of the spec), plus `setReady`, without which `startGame` can never
meet its `NotAllReady` precondition. -/
inductive Op
  | connect (cid : Nat) (name : String) (now : Nat)
  | createLobby (cid : Nat)
  | joinLobby (cid : Nat) (lid : Nat)
  | quitLobby (cid : Nat)
  | setReady (cid : Nat)
  | startGame (cid : Nat)
  | disconnect (cid : Nat)

/-- One step of the system: the post-state of the corresponding handler
(failed handlers keep whatever partial mutation they performed, exactly as
the code does). -/
def step (s : ServerState) : Op → ServerState
  | .connect cid name now => (connectFn s cid name now).1
  | .createLobby cid => (createLobbyFn s cid).1
  | .joinLobby cid lid => (joinLobbyFn s cid lid).1
  | .quitLobby cid => (quitLobbyFn s cid).1
  | .setReady cid => (setReadyFn s cid).1
  | .startGame cid => (startGameFn s cid).1
  | .disconnect cid => (disconnectFn s cid).1

/-- Run a sequence of operations from a state. -/
def runOps (s : ServerState) : List Op → ServerState
  | [] => s
  | op :: ops => runOps (step s op) ops

/-- The freshly constructed server (`Server::new`): every registry empty. -/
def initState : ServerState := ⟨[], [], ⟨0, []⟩, [], 0⟩

/-- Lobby membership and game membership are never both set (spec invariant
(d), quantified over the records of the player registry). -/
def mutualExclusive (s : ServerState) : Prop :=
  ∀ e ∈ s.players, (e.2.lobby_id.isSome && e.2.game_id.isSome) = false

instance mutualExclusiveDec (s : ServerState) :
    Decidable (mutualExclusive s) :=
  List.decidableBAll _ s.players

/-- Guard of the amended invariant claim: the operation is not a
`CreateLobby`/`JoinLobby` issued by a player whose game membership is set
(those two handlers do not check game membership). -/
def opGuard (s : ServerState) (op : Op) : Prop :=
  match op with
  | .createLobby cid => ∀ e ∈ s.players, e.1 = cid → e.2.game_id = none
  | .joinLobby cid _ => ∀ e ∈ s.players, e.1 = cid → e.2.game_id = none
  | _ => True

/-- A trace every operation of which satisfies `opGuard` in the state where
it runs. -/
def goodTrace (s : ServerState) : List Op → Prop
  | [] => True
  | op :: ops => opGuard s op ∧ goodTrace (step s op) ops

instance opGuardDec (s : ServerState) (op : Op) : Decidable (opGuard s op) := by
  cases op <;> simp only [opGuard] <;> infer_instance

instance goodTraceDec (s : ServerState) (ops : List Op) :
    Decidable (goodTrace s ops) := by
  induction ops generalizing s with
  | nil => exact .isTrue trivial
  | cons op ops ih =>
    have : Decidable (opGuard s op ∧ goodTrace (step s op) ops) :=
      @instDecidableAnd _ _ _ (ih (step s op))
    exact this

/-- The request frames handled by `Server::handle_request` (`server.rs`
lines 288–414, `frame.rs` `Request`). -/
inductive Request
  | connect (name : String)
  | disconnect
  | heartbeat
  | createLobby
  | joinLobby (lobby_id : Nat)
  | quitLobby

/-- The typed response frames (`frame.rs` `Response`): each carries a
`success` flag; the lobby responses additionally carry the lobby payload
(its id here) which is present only on success. -/
inductive Response
  | connect (success : Bool)
  | disconnect (success : Bool)
  | heartbeat (success : Bool)
  | createLobby (success : Bool) (lobby : Option Nat)
  | joinLobby (success : Bool) (lobby : Option Nat)
  | quitLobby (success : Bool)
deriving DecidableEq

/-- Request kind tag. -/
def reqKind : Request → Nat
  | .connect _ => 0
  | .disconnect => 1
  | .heartbeat => 2
  | .createLobby => 3
  | .joinLobby _ => 4
  | .quitLobby => 5

/-- Response kind tag, aligned with `reqKind`. -/
def respKind : Response → Nat
  | .connect _ => 0
  | .disconnect _ => 1
  | .heartbeat _ => 2
  | .createLobby _ _ => 3
  | .joinLobby _ _ => 4
  | .quitLobby _ => 5

/-- The `success` flag of a response. -/
def respSuccess : Response → Bool
  | .connect b => b
  | .disconnect b => b
  | .heartbeat b => b
  | .createLobby b _ => b
  | .joinLobby b _ => b
  | .quitLobby b => b

/-- Whether the handler invoked for `req` succeeds on state `s`. -/
def reqSucceeds (s : ServerState) (cid : Nat) (now : Nat) : Request → Bool
  | .connect name => (connectFn s cid name now).2 = ConnectRes.ok
  | .disconnect => (disconnectFn s cid).2 = DisOutcome.ok
  | .heartbeat => (heartbeatFn s cid now).2 = HeartbeatRes.ok
  | .createLobby => (createLobbyFn s cid).2 = LobbyRes.ok
  | .joinLobby lid => (joinLobbyFn s cid lid).2 = LobbyRes.ok
  | .quitLobby => (quitLobbyFn s cid).2 = LobbyRes.ok

/-- `Server::handle_request` (`server.rs` lines 288–414): dispatch on the
request kind, run the handler, and send exactly one response of the matching
kind whose `success` flag mirrors the handler result; the handler's `Err` is
returned to the read loop, which only logs it — the session is not torn
down.  The result is `none` exactly when the handler panicked (only the
disconnect path can). -/
def handleRequestFn (s : ServerState) (cid : Nat) (now : Nat) :
    Request → Option (ServerState × Response)
  | .connect name =>
    let r := connectFn s cid name now
    some (r.1, .connect (r.2 = ConnectRes.ok))
  | .disconnect =>
    let r := disconnectFn s cid
    match r.2 with
    | .ok => some (r.1, .disconnect true)
    | .notFound => some (r.1, .disconnect false)
    | .panicked => none
  | .heartbeat =>
    let r := heartbeatFn s cid now
    some (r.1, .heartbeat (r.2 = HeartbeatRes.ok))
  | .createLobby =>
    let r := createLobbyFn s cid
    match r.2 with
    | .ok => some (r.1, .createLobby true (some s.lobbies.next_id))
    | _ => some (r.1, .createLobby false none)
  | .joinLobby lid =>
    let r := joinLobbyFn s cid lid
    match r.2 with
    | .ok => some (r.1, .joinLobby true (some lid))
    | _ => some (r.1, .joinLobby false none)
  | .quitLobby =>
    let r := quitLobbyFn s cid
    some (r.1, .quitLobby (r.2 = LobbyRes.ok))

/-- Referential well-formedness of the registries: every player's lobby
membership names a lobby present in the lobby registry and every game
membership names a game present in the game registry (spec invariants (b)
and (c), the part that guards the `disconnect` unwraps). -/
def wfB (s : ServerState) : Bool :=
  s.players.all (fun e =>
    (match e.2.lobby_id with
     | none => true
     | some l => (findA l s.lobbies.map).isSome) &&
    (match e.2.game_id with
     | none => true
     | some g => (findA g s.games).isSome))

/-- Earliest entry of the timeout queue (`peek_earliest`, §4.2 of the spec:
the priority structure is ordered by last-heartbeat timestamp, earliest
first). -/
def peekEarliest : List (Nat × Nat) → Option (Nat × Nat)
  | [] => none
  | e :: rest =>
    match peekEarliest rest with
    | none => some e
    | some m => if e.2 ≤ m.2 then some e else some m

/-- One pass of the background timeout sweep.  Modelled from the spec (§4.2,
§7): the sweep is not part of the provided sources (`Server::run` in
`server.rs` holds only the accept/read/write loops); per the spec it
repeatedly peeks the earliest entry, and while that entry's age exceeds the
threshold it synthesizes a disconnect for the identity through the same path
as an explicit disconnect request (`disconnectFn`), untracks the entry (a
missing player is "logged and skipped"), and continues; it stops at the
first fresh entry.  `fuel` bounds the recursion by the queue length. -/
def sweepAux : Nat → ServerState → Nat → Nat → ServerState
  | 0, s, _, _ => s
  | fuel + 1, s, now, thr =>
    match peekEarliest s.timeouts with
    | none => s
    | some (cid, ts) =>
      if ts + thr < now then
        let s1 := (disconnectFn s cid).1
        sweepAux fuel { s1 with timeouts := eraseA cid s1.timeouts } now thr
      else s

/-- The timeout sweep run at instant `now` with timeout threshold `thr`.
Modelled from the spec (see `sweepAux`). -/
def sweep (s : ServerState) (now thr : Nat) : ServerState :=
  sweepAux s.timeouts.length s now thr

/-- A player inside a game as seen by `set_tile.rs`: identity plus the hand
of cards.  The rules-service internals are external; the hand is the part
`take_card` acts on. -/
structure GamePlayer where
  id : Nat
  hand : List Char
deriving DecidableEq

/-- A running game as seen by `set_tile.rs`: its players, the index of the
player whose turn it is (`get_player_in_this_turn`), and the board the tiles
are placed on (`place_tile_on_board`). -/
structure GameG where
  players : List GamePlayer
  turn : Nat
  board : List (Nat × Nat × Char)
deriving DecidableEq

/-- A `PlayerService` record as used by `set_tile.rs`: identity and the game
the player is in (`player.get_game()`). -/
structure CPlayer where
  id : Nat
  game_id : Option Nat
deriving DecidableEq

/-- The registries behind `PlayerService`/`GameService` that
`SetTileController` reads. -/
structure GState where
  players : List (Nat × CPlayer)
  games : List (Nat × GameG)
deriving DecidableEq

/-- The payload of `Request::SetTile` (`SetTileRequest {x, y, card_index}`). -/
structure SetTileReq where
  x : Nat
  y : Nat
  card_index : Nat
deriving DecidableEq

/-- Outcomes of `SetTileController::handle_request`, one per `return` site of
`set_tile.rs` lines 41–77. -/
inductive STOutcome
  | ok
  | playerNotFound
  | notInGame
  | gamePlayerNotFound
  | noCard
  | wrongTurn
  | outOfBounds
deriving DecidableEq

/-- `take_card(game_player, index) -> Symbol | None`.  Modelled from the
spec (§6): the rules service takes the card at `index` out of the player's
hand and returns its symbol; `None` when the index is not a card the player
holds. -/
def takeCard (gp : GamePlayer) (idx : Nat) : Option (Char × GamePlayer) :=
  match gp.hand.get? idx with
  | none => none
  | some sym => some (sym, { gp with hand := gp.hand.eraseIdx idx })

/-- `game.get_player(id)`. -/
def gameGetPlayer (g : GameG) (pid : Nat) : Option GamePlayer :=
  g.players.find? (fun q => q.id == pid)

/-- Whether the turn player (`get_player_in_this_turn`) is the player with
identity `pid`.  The Rust comparison `turn_player != game_player` compares
the two player handles; handles of the same game coincide exactly when the
identities do. -/
def turnIs (g : GameG) (pid : Nat) : Bool :=
  match g.players.get? g.turn with
  | some tp => tp.id == pid
  | none => false

/-- `SetTileController::handle_request` (`set_tile.rs` lines 32–77): resolve
the player, its game, its in-game record; TAKE the card at `card_index` out
of the hand (a shared-state mutation that persists); only then check the
turn and the `x/y < 26` bounds; finally place the tile on the board via the
game service.  The returned state carries every mutation performed up to the
return site. -/
def setTileFn (s : GState) (cid : Nat) (req : SetTileReq) :
    GState × STOutcome :=
  match findA cid s.players with
  | none => (s, .playerNotFound)
  | some pl =>
    match pl.game_id with
    | none => (s, .notInGame)
    | some gid =>
      match findA gid s.games with
      | none => (s, .notInGame)
      | some g =>
        match gameGetPlayer g pl.id with
        | none => (s, .gamePlayerNotFound)
        | some gp =>
          match takeCard gp req.card_index with
          | none => (s, .noCard)
          | some (sym, gp') =>
            let g' : GameG :=
              { g with
                  players := g.players.map
                    (fun q => if q.id = pl.id then gp' else q) }
            let s' : GState := { s with games := insertA gid g' s.games }
            if !(turnIs g' pl.id) then (s', .wrongTurn)
            else if 26 ≤ req.x then (s', .outOfBounds)
            else if 26 ≤ req.y then (s', .outOfBounds)
            else
              ({ s' with
                  games := insertA gid
                    { g' with board := g'.board ++ [(req.x, req.y, sym)] }
                    s'.games }, .ok)

/-- Helper: under referential well-formedness no `disconnect` branch reaches
an unguarded `unwrap`/index panic. -/
theorem disconnect_no_panic_of_wf (s : ServerState) (cid : Nat)
    (hwf : wfB s = true) : (disconnectFn s cid).2 ≠ DisOutcome.panicked := by
  cases hfp : findA cid s.players with
  | none => simp [disconnectFn, hfp]
  | some p =>
    have hmem : (cid, p) ∈ s.players := findA_mem hfp
    have hall := List.all_eq_true.1 hwf _ hmem
    rw [Bool.and_eq_true] at hall
    obtain ⟨hl, hg⟩ := hall
    have hgames :
        ∀ t : ServerState, t.games = s.games →
          (disconnectGame t p cid).2 ≠ DisOutcome.panicked := by
      intro t ht
      cases hgid : p.game_id with
      | none => simp [disconnectGame, hgid]
      | some g =>
        simp only [hgid] at hg
        obtain ⟨parts, hparts⟩ := Option.isSome_iff_exists.1 hg
        simp [disconnectGame, hgid, ht, hparts]
    cases hlid : p.lobby_id with
    | none =>
      simp only [disconnectFn, hfp, hlid]
      exact hgames _ rfl
    | some lid =>
      simp only [hlid] at hl
      obtain ⟨lob, hlobeq⟩ := Option.isSome_iff_exists.1 hl
      simp only [disconnectFn, hfp, hlid, hlobeq]
      exact hgames _ rfl

/-- C3: a second `connect` for an identity that is already registered fails
with `AlreadyConnected`, leaves every registry untouched, and the original
player record is still registered unchanged. -/
theorem connect_twice_already_connected (s : ServerState) (cid : Nat)
    (name : String) (now : Nat) (p : Player)
    (h : findA cid s.players = some p) :
    connectFn s cid name now = (s, ConnectRes.alreadyConnected) ∧
    findA cid (connectFn s cid name now).1.players = some p := by
  have hs : (findA cid s.players).isSome = true := by rw [h]; rfl
  refine ⟨?_, ?_⟩
  · simp [connectFn, hs]
  · simp [connectFn, hs, h]

/-- C3 witness: connect identity 0 as "alice", then connect it again. -/
theorem connect_twice_already_connected_witness :
    connectFn (connectFn initState 0 "alice" 5).1 0 "bob" 9 =
      ((connectFn initState 0 "alice" 5).1, ConnectRes.alreadyConnected) ∧
    findA 0 (connectFn (connectFn initState 0 "alice" 5).1 0 "bob" 9).1.players =
      some ⟨0, "alice", none, none⟩ :=
  connect_twice_already_connected (connectFn initState 0 "alice" 5).1 0 "bob" 9
    ⟨0, "alice", none, none⟩ (by decide)

/-- C8: `create_lobby` for an unregistered identity reports
`Player not found`, yet the freshly created empty lobby is already in the
registry of the post-state and is not removed. -/
theorem create_lobby_leaks_lobby_on_missing_player (s : ServerState)
    (cid : Nat) (h : findA cid s.players = none) :
    (createLobbyFn s cid).2 = LobbyRes.playerNotFound ∧
    findA s.lobbies.next_id (createLobbyFn s cid).1.lobbies.map =
      some ⟨s.lobbies.next_id, defaultCapacity, []⟩ := by
  refine ⟨?_, ?_⟩ <;> simp [createLobbyFn, h, findA_insertA_self]

/-- C8 witness: `create_lobby` on the fresh server, where identity 0 was
never connected. -/
theorem create_lobby_leaks_lobby_on_missing_player_witness :
    (createLobbyFn initState 0).2 = LobbyRes.playerNotFound ∧
    findA initState.lobbies.next_id
        (createLobbyFn initState 0).1.lobbies.map =
      some ⟨initState.lobbies.next_id, defaultCapacity, []⟩ :=
  create_lobby_leaks_lobby_on_missing_player initState 0 (by decide)

/-- C10: during `disconnect` of a registered player, a lobby membership
naming a lobby absent from the lobby registry — or, with no lobby
membership, a game membership naming a game absent from the game registry —
makes the operation panic (the unguarded `unwrap` / map index) instead of
returning an error; under the referential invariants (b)/(c) the panic
branches are unreachable. -/
theorem disconnect_panics_on_dangling_membership (s : ServerState) (cid : Nat)
    (p : Player) :
    (findA cid s.players = some p → ∀ l, p.lobby_id = some l →
      findA l s.lobbies.map = none →
      (disconnectFn s cid).2 = DisOutcome.panicked) ∧
    (findA cid s.players = some p → p.lobby_id = none →
      ∀ g, p.game_id = some g → findA g s.games = none →
      (disconnectFn s cid).2 = DisOutcome.panicked) ∧
    (wfB s = true → (disconnectFn s cid).2 ≠ DisOutcome.panicked) := by
  refine ⟨?_, ?_, fun hwf => disconnect_no_panic_of_wf s cid hwf⟩
  · intro hfp l hl hmiss
    simp [disconnectFn, hfp, hl, hmiss]
  · intro hfp hl g hg hmiss
    simp [disconnectFn, hfp, hl, disconnectGame, hg, hmiss]

/-- C10 witness: a player whose lobby id 7 names no lobby panics; a player
whose game id 3 names no game panics; on a well-formed state (the fresh
server) disconnect never panics. -/
theorem disconnect_panics_on_dangling_membership_witness :
    (disconnectFn ⟨[(0, ⟨0, "a", some 7, none⟩)], [(0, 0)], ⟨0, []⟩, [], 0⟩ 0).2
      = DisOutcome.panicked ∧
    (disconnectFn ⟨[(1, ⟨1, "b", none, some 3⟩)], [(1, 0)], ⟨0, []⟩, [], 0⟩ 1).2
      = DisOutcome.panicked ∧
    (disconnectFn initState 0).2 ≠ DisOutcome.panicked :=
  ⟨(disconnect_panics_on_dangling_membership
      ⟨[(0, ⟨0, "a", some 7, none⟩)], [(0, 0)], ⟨0, []⟩, [], 0⟩ 0
      ⟨0, "a", some 7, none⟩).1 (by decide) 7 rfl (by decide),
   (disconnect_panics_on_dangling_membership
      ⟨[(1, ⟨1, "b", none, some 3⟩)], [(1, 0)], ⟨0, []⟩, [], 0⟩ 1
      ⟨1, "b", none, some 3⟩).2.1 (by decide) rfl 3 rfl (by decide),
   (disconnect_panics_on_dangling_membership initState 0
      ⟨0, "x", none, none⟩).2.2 (by decide)⟩

/-- Helper: the game branch of disconnect succeeds when the game membership
(if any) names a present game; it touches only the game map, from which the
identity's participation is gone. -/
theorem disconnectGame_spec (t : ServerState) (p : Player) (cid : Nat)
    (hga : ∀ g, p.game_id = some g → (findA g t.games).isSome = true) :
    (disconnectGame t p cid).2 = DisOutcome.ok ∧
    (disconnectGame t p cid).1.players = t.players ∧
    (disconnectGame t p cid).1.timeouts = t.timeouts ∧
    (disconnectGame t p cid).1.lobbies = t.lobbies ∧
    (∀ g parts, p.game_id = some g →
      findA g (disconnectGame t p cid).1.games = some parts → cid ∉ parts) := by
  cases hgid : p.game_id with
  | none =>
    refine ⟨by simp [disconnectGame, hgid], by simp [disconnectGame, hgid],
      by simp [disconnectGame, hgid], by simp [disconnectGame, hgid], ?_⟩
    intro g parts hg
    exact Option.noConfusion hg
  | some g =>
    obtain ⟨parts, hparts⟩ := Option.isSome_iff_exists.1 (hga g hgid)
    refine ⟨by simp [disconnectGame, hgid, hparts],
      by simp [disconnectGame, hgid, hparts],
      by simp [disconnectGame, hgid, hparts],
      by simp [disconnectGame, hgid, hparts], ?_⟩
    intro g' parts' hg' hfind
    injection hg' with hg'
    subst hg'
    simp only [disconnectGame, hgid, hparts] at hfind
    rw [findA_insertA_self] at hfind
    injection hfind with hfind
    subst hfind
    intro hmemp
    have := List.of_mem_filter hmemp
    simp at this

/-- Helper: after removing `cid` from lobby `lid`, the lobby either
disappeared from the registry (last member) or no longer lists `cid`;
timeouts, games and the `findA cid` player lookup are untouched. -/
theorem removeMember_spec (t : ServerState) (lid : Nat) (lob : Lobby)
    (cid : Nat) :
    (removeMemberFromLobby t lid lob cid).timeouts = t.timeouts ∧
    (removeMemberFromLobby t lid lob cid).games = t.games ∧
    findA cid (removeMemberFromLobby t lid lob cid).players =
      (findA cid t.players).map (fun p => { p with lobby_id := none }) ∧
    (∀ lob', findA lid (removeMemberFromLobby t lid lob cid).lobbies.map =
        some lob' → ∀ r, (cid, r) ∉ lob'.members) := by
  refine ⟨rfl, rfl, by simp [removeMemberFromLobby, findA_updateA_self], ?_⟩
  intro lob' hfind r hmem
  simp only [removeMemberFromLobby] at hfind
  by_cases hemp : (lob.members.filter (fun e => !(e.1 == cid))).isEmpty
  · rw [if_pos hemp, findA_eraseA_self] at hfind
    cases hfind
  · rw [if_neg hemp, findA_insertA_self] at hfind
    injection hfind with hfind
    subst hfind
    have := List.of_mem_filter hmem
    simp at this

/-- C1: disconnecting a registered identity (whose memberships name present
aggregates) succeeds and removes the player record, the timeout entry, the
identity's lobby-member entry and its game participation; disconnecting an
identity that was never registered fails with `Player not found`. -/
theorem disconnect_cleans_up_everything (s : ServerState) (cid : Nat) :
    (∀ p, findA cid s.players = some p →
      (∀ l, p.lobby_id = some l → (findA l s.lobbies.map).isSome = true) →
      (∀ g, p.game_id = some g → (findA g s.games).isSome = true) →
      (disconnectFn s cid).2 = DisOutcome.ok ∧
      findA cid (disconnectFn s cid).1.players = none ∧
      findA cid (disconnectFn s cid).1.timeouts = none ∧
      (∀ l lob, p.lobby_id = some l →
        findA l (disconnectFn s cid).1.lobbies.map = some lob →
        ∀ r, (cid, r) ∉ lob.members) ∧
      (∀ g parts, p.game_id = some g →
        findA g (disconnectFn s cid).1.games = some parts → cid ∉ parts)) ∧
    (findA cid s.players = none →
      disconnectFn s cid = (s, DisOutcome.notFound)) := by
  constructor
  · intro p hfp hlo hga
    cases hlid : p.lobby_id with
    | none =>
      have hred : disconnectFn s cid =
          disconnectGame
            { s with players := eraseA cid s.players,
                     timeouts := eraseA cid s.timeouts } p cid := by
        simp [disconnectFn, hfp, hlid]
      obtain ⟨h1, h2, h3, _, h5⟩ := disconnectGame_spec
        { s with players := eraseA cid s.players,
                 timeouts := eraseA cid s.timeouts } p cid (by simpa using hga)
      rw [hred]
      refine ⟨h1, ?_, ?_, ?_, h5⟩
      · rw [h2]; exact findA_eraseA_self cid s.players
      · rw [h3]; exact findA_eraseA_self cid s.timeouts
      · intro l lob hl
        exact Option.noConfusion hl
    | some lid =>
      obtain ⟨lob, hlobeq⟩ := Option.isSome_iff_exists.1 (hlo lid hlid)
      have hred : disconnectFn s cid =
          disconnectGame
            (removeMemberFromLobby
              { s with players := eraseA cid s.players,
                       timeouts := eraseA cid s.timeouts } lid lob cid) p cid := by
        simp [disconnectFn, hfp, hlid, hlobeq]
      obtain ⟨hr1, hr2, hr3, hr4⟩ := removeMember_spec
        { s with players := eraseA cid s.players,
                 timeouts := eraseA cid s.timeouts } lid lob cid
      obtain ⟨h1, h2, h3, h4, h5⟩ := disconnectGame_spec
        (removeMemberFromLobby
          { s with players := eraseA cid s.players,
                   timeouts := eraseA cid s.timeouts } lid lob cid) p cid
        (by rw [hr2]; simpa using hga)
      rw [hred]
      refine ⟨h1, ?_, ?_, ?_, h5⟩
      · rw [h2, hr3]
        simp [findA_eraseA_self]
      · rw [h3, hr1]
        exact findA_eraseA_self cid s.timeouts
      · intro l lob' hl hfind
        injection hl with hl
        subst hl
        rw [h4] at hfind
        exact hr4 lob' hfind
  · intro h
    simp [disconnectFn, h]

/-- C1 witness: disconnecting identity 0, which is registered, sits in lobby
5 together with identity 1, and participates in game 2; and disconnecting
identity 9, which was never registered. -/
theorem disconnect_cleans_up_everything_witness :
    ((disconnectFn
        ⟨[(0, ⟨0, "a", some 5, some 2⟩)], [(0, 3)],
          ⟨6, [(5, ⟨5, 4, [(0, true), (1, false)]⟩)]⟩, [(2, [0, 1])], 3⟩ 0).2
      = DisOutcome.ok ∧
     findA 0 (disconnectFn
        ⟨[(0, ⟨0, "a", some 5, some 2⟩)], [(0, 3)],
          ⟨6, [(5, ⟨5, 4, [(0, true), (1, false)]⟩)]⟩, [(2, [0, 1])], 3⟩ 0).1.players
      = none) ∧
    disconnectFn initState 9 = (initState, DisOutcome.notFound) := by
  have h := disconnect_cleans_up_everything
    ⟨[(0, ⟨0, "a", some 5, some 2⟩)], [(0, 3)],
      ⟨6, [(5, ⟨5, 4, [(0, true), (1, false)]⟩)]⟩, [(2, [0, 1])], 3⟩ 0
  have h9 := disconnect_cleans_up_everything initState 9
  obtain ⟨hok, hnone, _, _, _⟩ :=
    h.1 ⟨0, "a", some 5, some 2⟩ (by decide)
      (by intro l hl; injection hl with hl; subst hl; decide)
      (by intro g hg; injection hg with hg; subst hg; decide)
  exact ⟨⟨hok, hnone⟩, h9.2 (by decide)⟩

/-- C6: disconnecting a player that is the sole member of its lobby removes
the lobby from the lobby registry — a later `get(lobby_id)` finds nothing —
because removing the last member triggers the registry destroy. -/
theorem disconnect_sole_member_destroys_lobby (s : ServerState) (cid : Nat)
    (p : Player) (lid : Nat) (lob : Lobby)
    (hfp : findA cid s.players = some p)
    (hlid : p.lobby_id = some lid)
    (hlob : findA lid s.lobbies.map = some lob)
    (hsole : ∀ e ∈ lob.members, e.1 = cid)
    (hgame : p.game_id = none) :
    (disconnectFn s cid).2 = DisOutcome.ok ∧
    findA lid (disconnectFn s cid).1.lobbies.map = none := by
  have hemp : (lob.members.filter (fun e => !(e.1 == cid))).isEmpty = true := by
    rw [List.isEmpty_iff, List.filter_eq_nil]
    intro a ha
    simp [hsole a ha]
  have hred : disconnectFn s cid =
      (removeMemberFromLobby
        { s with players := eraseA cid s.players,
                 timeouts := eraseA cid s.timeouts } lid lob cid,
        DisOutcome.ok) := by
    simp [disconnectFn, hfp, hlid, hlob, disconnectGame, hgame]
  rw [hred]
  exact ⟨rfl, by simp [removeMemberFromLobby, hemp, findA_eraseA_self]⟩

/-- C6 witness: identity 0 is the sole member of lobby 0 and is
disconnected; lobby 0 is gone from the registry. -/
theorem disconnect_sole_member_destroys_lobby_witness :
    (disconnectFn
      ⟨[(0, ⟨0, "a", some 0, none⟩)], [(0, 1)],
        ⟨1, [(0, ⟨0, 4, [(0, false)]⟩)]⟩, [], 0⟩ 0).2 = DisOutcome.ok ∧
    findA 0 (disconnectFn
      ⟨[(0, ⟨0, "a", some 0, none⟩)], [(0, 1)],
        ⟨1, [(0, ⟨0, 4, [(0, false)]⟩)]⟩, [], 0⟩ 0).1.lobbies.map = none :=
  disconnect_sole_member_destroys_lobby
    ⟨[(0, ⟨0, "a", some 0, none⟩)], [(0, 1)],
      ⟨1, [(0, ⟨0, 4, [(0, false)]⟩)]⟩, [], 0⟩ 0
    ⟨0, "a", some 0, none⟩ 0 ⟨0, 4, [(0, false)]⟩
    (by decide) rfl (by decide) (by decide) rfl

/-- Helper: `find?` by identity commutes with mapping an id-preserving
function over the player list. -/
theorem find_map_id_preserving (l : List GamePlayer) (pid : Nat)
    (f : GamePlayer → GamePlayer) (hf : ∀ q, (f q).id = q.id) :
    (l.map f).find? (fun q => q.id == pid) =
      (l.find? (fun q => q.id == pid)).map f := by
  induction l with
  | nil => rfl
  | cons a l ih =>
    simp only [List.map_cons, List.find?_cons, hf]
    cases h : (a.id == pid) with
    | true => rfl
    | false => exact ih

/-- Helper: whose turn it is does not change when an id-preserving function
is mapped over the player list. -/
theorem turnIs_players_map (g : GameG) (pid : Nat)
    (f : GamePlayer → GamePlayer) (hf : ∀ q, (f q).id = q.id) :
    turnIs { g with players := g.players.map f } pid = turnIs g pid := by
  simp only [turnIs, List.get?_map]
  cases g.players.get? g.turn with
  | none => rfl
  | some tp => simp [hf]

/-- Helper: once the card has been taken out of the hand, the remainder of
`SetTileController::handle_request` is the turn check, the two bounds
checks, and the board placement, all over the already-mutated state. -/
theorem setTileFn_after_take (s : GState) (cid : Nat) (req : SetTileReq)
    (pl : CPlayer) (gid : Nat) (g : GameG) (gp : GamePlayer)
    (hp : findA cid s.players = some pl)
    (hgid : pl.game_id = some gid)
    (hg : findA gid s.games = some g)
    (hgp : gameGetPlayer g pl.id = some gp)
    (hcard : req.card_index < gp.hand.length) :
    setTileFn s cid req =
      (let gp' : GamePlayer := { gp with hand := gp.hand.eraseIdx req.card_index }
       let g' : GameG :=
         { g with players := g.players.map (fun q => if q.id = pl.id then gp' else q) }
       let s' : GState := { s with games := insertA gid g' s.games }
       if !(turnIs g' pl.id) then (s', STOutcome.wrongTurn)
       else if 26 ≤ req.x then (s', STOutcome.outOfBounds)
       else if 26 ≤ req.y then (s', STOutcome.outOfBounds)
       else
         ({ s' with
             games := insertA gid
               { g' with
                   board := g'.board ++
                     [(req.x, req.y, gp.hand.get ⟨req.card_index, hcard⟩)] }
               s'.games }, STOutcome.ok)) := by
  have hsym : gp.hand.get? req.card_index =
      some (gp.hand.get ⟨req.card_index, hcard⟩) := List.get?_eq_get hcard
  simp only [setTileFn, hp, hgid, hg, hgp, takeCard, hsym]

/-- C5: with the turn player issuing the request and the card valid, a
`PlaceTile` with `x = 27` fails with the out-of-board error; and in general
a tile reaches the board (outcome `ok`) only when both `x` and `y` are below
the board bound 26. -/
theorem set_tile_out_of_bounds (s : GState) (cid : Nat) (req : SetTileReq)
    (pl : CPlayer) (gid : Nat) (g : GameG) (gp tp : GamePlayer)
    (hp : findA cid s.players = some pl)
    (hgid : pl.game_id = some gid)
    (hg : findA gid s.games = some g)
    (hgp : gameGetPlayer g pl.id = some gp)
    (hcard : req.card_index < gp.hand.length)
    (hturn : g.players.get? g.turn = some tp)
    (htpid : tp.id = pl.id) :
    (req.x = 27 → (setTileFn s cid req).2 = STOutcome.outOfBounds) ∧
    (∀ (s0 : GState) (cid0 : Nat) (req0 : SetTileReq),
      (setTileFn s0 cid0 req0).2 = STOutcome.ok →
      req0.x < 26 ∧ req0.y < 26) := by
  constructor
  · intro hx
    have hgpid : gp.id = pl.id := by
      have := List.find?_some hgp
      simpa using this
    have hf : ∀ q : GamePlayer,
        ((fun q : GamePlayer => if q.id = pl.id
          then { gp with hand := gp.hand.eraseIdx req.card_index } else q) q).id
          = q.id := by
      intro q
      by_cases hq : q.id = pl.id
      · simp [hq, hgpid]
      · simp [hq]
    have hturn' : turnIs
        { g with players := g.players.map (fun q => if q.id = pl.id
            then { gp with hand := gp.hand.eraseIdx req.card_index } else q) }
        pl.id = true := by
      rw [turnIs_players_map g pl.id _ hf]
      have hturn2 : g.players[g.turn]? = some tp := by simpa using hturn
      simp [turnIs, hturn2, htpid]
    rw [setTileFn_after_take s cid req pl gid g gp hp hgid hg hgp hcard]
    simp only [hturn', Bool.not_true, Bool.false_eq_true, if_false, hx]
    norm_num
  · intro s0 cid0 req0 h
    simp only [setTileFn] at h
    split at h
    · simp at h
    rename_i pl0 _
    split at h
    · simp at h
    rename_i gid0 _
    split at h
    · simp at h
    rename_i g0 _
    split at h
    · simp at h
    rename_i gp0 _
    split at h
    · simp at h
    rename_i c0 _
    split at h
    · simp at h
    · split at h
      · simp at h
      · split at h
        · simp at h
        · rename_i hx hy
          exact ⟨by omega, by omega⟩

/-- C5 witness: a two-player game where it is player 0's turn; player 0
places at `x = 27` and the handler reports out-of-board. -/
theorem set_tile_out_of_bounds_witness :
    (setTileFn
      ⟨[(0, ⟨0, some 0⟩), (1, ⟨1, some 0⟩)],
        [(0, ⟨[⟨0, ['a', 'b']⟩, ⟨1, ['c']⟩], 0, []⟩)]⟩
      0 ⟨27, 1, 1⟩).2 = STOutcome.outOfBounds :=
  (set_tile_out_of_bounds
    ⟨[(0, ⟨0, some 0⟩), (1, ⟨1, some 0⟩)],
      [(0, ⟨[⟨0, ['a', 'b']⟩, ⟨1, ['c']⟩], 0, []⟩)]⟩
    0 ⟨27, 1, 1⟩ ⟨0, some 0⟩ 0 ⟨[⟨0, ['a', 'b']⟩, ⟨1, ['c']⟩], 0, []⟩
    ⟨0, ['a', 'b']⟩ ⟨0, ['a', 'b']⟩
    (by decide) rfl (by decide) (by decide) (by decide) (by decide) rfl).1 rfl

/-- C9: a `PlaceTile` that fails with the wrong-turn or the out-of-board
error has nonetheless already removed the card at `card_index` from the
caller's hand (the take happens before the turn and bounds checks), so the
player state is mutated although the operation reports failure. -/
theorem set_tile_failure_still_consumes_card (s : GState) (cid : Nat)
    (req : SetTileReq) (pl : CPlayer) (gid : Nat) (g : GameG) (gp : GamePlayer)
    (hp : findA cid s.players = some pl)
    (hgid : pl.game_id = some gid)
    (hg : findA gid s.games = some g)
    (hgp : gameGetPlayer g pl.id = some gp)
    (hcard : req.card_index < gp.hand.length)
    (hfail : (setTileFn s cid req).2 = STOutcome.wrongTurn ∨
      (setTileFn s cid req).2 = STOutcome.outOfBounds) :
    ∃ g2, findA gid (setTileFn s cid req).1.games = some g2 ∧
      gameGetPlayer g2 pl.id =
        some { gp with hand := gp.hand.eraseIdx req.card_index } ∧
      (gp.hand.eraseIdx req.card_index).length + 1 = gp.hand.length := by
  have hgpid : gp.id = pl.id := by
    have := List.find?_some hgp
    simpa using this
  have hf : ∀ q : GamePlayer,
      ((fun q : GamePlayer => if q.id = pl.id
        then { gp with hand := gp.hand.eraseIdx req.card_index } else q) q).id
        = q.id := by
    intro q
    by_cases hq : q.id = pl.id
    · simp [hq, hgpid]
    · simp [hq]
  have hfind : gameGetPlayer
      { g with players := g.players.map (fun q => if q.id = pl.id
          then { gp with hand := gp.hand.eraseIdx req.card_index } else q) }
      pl.id = some { gp with hand := gp.hand.eraseIdx req.card_index } := by
    simp only [gameGetPlayer] at hgp ⊢
    rw [find_map_id_preserving _ _ _ hf, hgp]
    simp [hgpid]
  have hlen : (gp.hand.eraseIdx req.card_index).length + 1 = gp.hand.length := by
    rw [List.length_eraseIdx, if_pos hcard]
    omega
  rw [setTileFn_after_take s cid req pl gid g gp hp hgid hg hgp hcard] at hfail ⊢
  by_cases ht : turnIs
      { g with players := g.players.map (fun q => if q.id = pl.id
          then { gp with hand := gp.hand.eraseIdx req.card_index } else q) }
      pl.id = true
  · simp only [ht, Bool.not_true, Bool.false_eq_true, if_false] at hfail ⊢
    by_cases hxx : 26 ≤ req.x
    · simp only [if_pos hxx]
      exact ⟨_, findA_insertA_self _ _ _, hfind, hlen⟩
    · simp only [if_neg hxx] at hfail ⊢
      by_cases hyy : 26 ≤ req.y
      · simp only [if_pos hyy]
        exact ⟨_, findA_insertA_self _ _ _, hfind, hlen⟩
      · simp only [if_neg hyy] at hfail
        simp at hfail
  · simp only [Bool.not_eq_true] at ht
    simp only [ht, Bool.not_false, if_true]
    exact ⟨_, findA_insertA_self _ _ _, hfind, hlen⟩

/-- C9 witness: player 1 (not the turn player) places at (1,1) with card
index 0; the handler answers wrong-turn and player 1's hand has lost the
card. -/
theorem set_tile_failure_still_consumes_card_witness :
    ∃ g2, findA 0 (setTileFn
        ⟨[(0, ⟨0, some 0⟩), (1, ⟨1, some 0⟩)],
          [(0, ⟨[⟨0, ['a', 'b']⟩, ⟨1, ['c', 'd']⟩], 0, []⟩)]⟩
        1 ⟨1, 1, 0⟩).1.games = some g2 ∧
      gameGetPlayer g2 1 = some ⟨1, ['d']⟩ ∧
      (['c', 'd'].eraseIdx 0).length + 1 = ['c', 'd'].length := by
  have h := set_tile_failure_still_consumes_card
    ⟨[(0, ⟨0, some 0⟩), (1, ⟨1, some 0⟩)],
      [(0, ⟨[⟨0, ['a', 'b']⟩, ⟨1, ['c', 'd']⟩], 0, []⟩)]⟩
    1 ⟨1, 1, 0⟩ ⟨1, some 0⟩ 0 ⟨[⟨0, ['a', 'b']⟩, ⟨1, ['c', 'd']⟩], 0, []⟩
    ⟨1, ['c', 'd']⟩ (by decide) rfl (by decide) (by decide) (by decide)
    (Or.inl (by decide))
  simpa using h

theorem applyAll_cons {α : Type} (f : α → α) (k : Nat) (ks : List Nat)
    (l : List (Nat × α)) :
    applyAll f (k :: ks) l = applyAll f ks (updateA k f l) := rfl

/-- Helper: a pointwise-preserved predicate survives `updateA`. -/
theorem updateA_preserves {α : Type} {Q : α → Prop} {k : Nat} {f : α → α}
    {l : List (Nat × α)} (hQ : ∀ v, Q v → Q (f v)) (hl : ∀ e ∈ l, Q e.2) :
    ∀ e ∈ updateA k f l, Q e.2 := by
  intro e he
  rcases mem_updateA he with h | ⟨v, hv, rfl⟩
  · exact hl e h
  · exact hQ v (hl (k, v) hv)

/-- Helper: a pointwise-preserved predicate survives `applyAll`. -/
theorem applyAll_preserves {α : Type} {Q : α → Prop} {f : α → α}
    (hQ : ∀ v, Q v → Q (f v)) :
    ∀ (ids : List Nat) (l : List (Nat × α)), (∀ e ∈ l, Q e.2) →
      ∀ e ∈ applyAll f ids l, Q e.2 := by
  intro ids
  induction ids with
  | nil => intro l hl e he; exact hl e he
  | cons k ks ih =>
    intro l hl e he
    rw [applyAll_cons] at he
    exact ih _ (updateA_preserves hQ hl) e he

/-- Helper: the game branch of disconnect never touches the player map. -/
theorem disconnectGame_players (t : ServerState) (p : Player) (cid : Nat) :
    (disconnectGame t p cid).1.players = t.players := by
  cases hgid : p.game_id with
  | none => simp [disconnectGame, hgid]
  | some gid =>
    cases hfg : findA gid t.games with
    | none => simp [disconnectGame, hgid, hfg]
    | some parts => simp [disconnectGame, hgid, hfg]

/-- Helper: every operation of the core preserves lobby/game mutual
exclusion, provided `CreateLobby`/`JoinLobby` are not issued by a player
already in a game (`opGuard`). -/
theorem step_preserves_mutualExclusive (s : ServerState) (op : Op)
    (hME : mutualExclusive s) (hg : opGuard s op) :
    mutualExclusive (step s op) := by
  cases op with
  | connect cid name now =>
    by_cases h : (findA cid s.players).isSome = true
    · simpa [step, connectFn, h] using hME
    · intro e he
      simp only [step, connectFn, if_neg h] at he
      rcases mem_insertA he with rfl | hin
      · rfl
      · exact hME e hin
  | createLobby cid =>
    intro e he
    cases hfp : findA cid s.players with
    | none =>
      simp only [step, createLobbyFn, hfp] at he
      exact hME e he
    | some p =>
      simp only [step, createLobbyFn, hfp, addPlayerToLobby, defaultCapacity,
        List.any_nil, List.length_nil, Bool.false_eq_true, if_false] at he
      rcases mem_updateA he with hin | ⟨v, hv, rfl⟩
      · exact hME e hin
      · have hvg : v.game_id = none := hg (cid, v) hv rfl
        simp [hvg]
  | joinLobby cid lid =>
    intro e he
    cases hfl : findA lid s.lobbies.map with
    | none =>
      simp only [step, joinLobbyFn, hfl] at he
      exact hME e he
    | some lob =>
      cases hfp : findA cid s.players with
      | none =>
        simp only [step, joinLobbyFn, hfl, hfp] at he
        exact hME e he
      | some p =>
        simp only [step, joinLobbyFn, hfl, hfp, addPlayerToLobby] at he
        split at he
        · exact hME e he
        · split at he
          · exact hME e he
          · rcases mem_updateA he with hin | ⟨v, hv, rfl⟩
            · exact hME e hin
            · have hvg : v.game_id = none := hg (cid, v) hv rfl
              simp [hvg]
  | quitLobby cid =>
    intro e he
    cases hfp : findA cid s.players with
    | none =>
      simp only [step, quitLobbyFn, hfp] at he
      exact hME e he
    | some p =>
      cases hlid : p.lobby_id with
      | none =>
        simp only [step, quitLobbyFn, hfp, hlid] at he
        exact hME e he
      | some lid =>
        cases hfl : findA lid s.lobbies.map with
        | none =>
          simp only [step, quitLobbyFn, hfp, hlid, hfl] at he
          exact hME e he
        | some lob =>
          simp only [step, quitLobbyFn, hfp, hlid, hfl,
            removeMemberFromLobby] at he
          rcases mem_updateA he with hin | ⟨v, hv, rfl⟩
          · exact hME e hin
          · simp
  | setReady cid =>
    intro e he
    cases hfp : findA cid s.players with
    | none =>
      simp only [step, setReadyFn, hfp] at he
      exact hME e he
    | some p =>
      cases hlid : p.lobby_id with
      | none =>
        simp only [step, setReadyFn, hfp, hlid] at he
        exact hME e he
      | some lid =>
        cases hfl : findA lid s.lobbies.map with
        | none =>
          simp only [step, setReadyFn, hfp, hlid, hfl] at he
          exact hME e he
        | some lob =>
          simp only [step, setReadyFn, hfp, hlid, hfl] at he
          exact hME e he
  | startGame cid =>
    intro e he
    cases hfp : findA cid s.players with
    | none =>
      simp only [step, startGameFn, hfp] at he
      exact hME e he
    | some p =>
      cases hlid : p.lobby_id with
      | none =>
        simp only [step, startGameFn, hfp, hlid] at he
        exact hME e he
      | some lid =>
        cases hfl : findA lid s.lobbies.map with
        | none =>
          simp only [step, startGameFn, hfp, hlid, hfl] at he
          exact hME e he
        | some lob =>
          simp only [step, startGameFn, hfp, hlid, hfl] at he
          split at he
          · exact hME e he
          · split at he
            · exact hME e he
            · have hq : ∀ v : Player,
                  (v.lobby_id.isSome && v.game_id.isSome) = false →
                  ((setInGame s.next_game_id v).lobby_id.isSome &&
                    (setInGame s.next_game_id v).game_id.isSome) = false := by
                intro v _
                simp [setInGame]
              have hl : ∀ e2 ∈ s.players,
                  (e2.2.lobby_id.isSome && e2.2.game_id.isSome) = false := hME
              exact applyAll_preserves hq _ _ hl e he
  | disconnect cid =>
    intro e he
    cases hfp : findA cid s.players with
    | none =>
      simp only [step, disconnectFn, hfp] at he
      exact hME e he
    | some p =>
      have hQ1 : ∀ e2 ∈ eraseA cid s.players,
          (e2.2.lobby_id.isSome && e2.2.game_id.isSome) = false :=
        fun e2 he2 => hME e2 (mem_eraseA he2)
      cases hlid : p.lobby_id with
      | none =>
        simp only [step, disconnectFn, hfp, hlid] at he
        rw [disconnectGame_players] at he
        exact hQ1 e he
      | some lid =>
        cases hfl : findA lid s.lobbies.map with
        | none =>
          simp only [step, disconnectFn, hfp, hlid, hfl] at he
          exact hQ1 e he
        | some lob =>
          simp only [step, disconnectFn, hfp, hlid, hfl] at he
          rw [disconnectGame_players] at he
          simp only [removeMemberFromLobby] at he
          rcases mem_updateA he with hin | ⟨v, hv, rfl⟩
          · exact hQ1 e hin
          · simp

/-- Helper: guarded traces keep mutual exclusion along the whole run. -/
theorem runOps_preserves_mutualExclusive (ops : List Op) :
    ∀ s, mutualExclusive s → goodTrace s ops →
      mutualExclusive (runOps s ops) := by
  induction ops with
  | nil => intro s h _; exact h
  | cons op ops ih =>
    intro s h hgt
    exact ih _ (step_preserves_mutualExclusive s op h hgt.1) hgt.2

/-- C2 counterexample: the claimed invariant fails on a reachable state.
Two players connect, share a lobby, both set ready, the game starts (moving
both memberships from lobby to game), and then player 0 — still in the game
— issues `CreateLobby`, which neither `Server::create_lobby` nor the lobby's
`add_member` guards against: player 0 ends with `lobby_id = some 1` AND
`game_id = some 0` set simultaneously. -/
theorem mutual_exclusion_fails_after_in_game_create_lobby :
    ¬ (∀ ops : List Op, mutualExclusive (runOps initState ops)) := by
  intro h
  exact absurd
    (h [.connect 0 "a" 0, .connect 1 "b" 0, .createLobby 0, .joinLobby 1 0,
        .setReady 0, .setReady 1, .startGame 0, .createLobby 0])
    (by decide)

/-- C2 (amended): after any sequence of connect / create-lobby / join-lobby
/ quit-lobby / set-ready / start-game / disconnect operations in which no
`CreateLobby` or `JoinLobby` is issued by a player whose game membership is
set, no player simultaneously has lobby membership and game membership. -/
theorem mutual_exclusion_under_guarded_traces (ops : List Op)
    (hgt : goodTrace initState ops) :
    mutualExclusive (runOps initState ops) :=
  runOps_preserves_mutualExclusive ops initState (fun e he => by cases he) hgt

/-- C2 witness: the same scenario up to the game start (without the rogue
in-game `CreateLobby`) is a guarded trace, and mutual exclusion holds at its
end. -/
theorem mutual_exclusion_under_guarded_traces_witness :
    goodTrace initState
      [.connect 0 "a" 0, .connect 1 "b" 0, .createLobby 0, .joinLobby 1 0,
       .setReady 0, .setReady 1, .startGame 0] ∧
    mutualExclusive (runOps initState
      [.connect 0 "a" 0, .connect 1 "b" 0, .createLobby 0, .joinLobby 1 0,
       .setReady 0, .setReady 1, .startGame 0]) :=
  ⟨by decide, mutual_exclusion_under_guarded_traces _ (by decide)⟩

/-- C4: for every request, the dispatcher produces exactly one typed
response, of the kind matching the request, whose `success` flag is `true`
exactly when the handler succeeded; a failing handler still yields a
`success:false` response (its `Err` is merely logged by the read loop, which
keeps the session running).  The well-formedness hypothesis excludes the
`disconnect` panic — the only path (see C10) that would kill the session
task without a response. -/
theorem dispatcher_always_responds (s : ServerState) (cid : Nat) (now : Nat)
    (req : Request) (hwf : wfB s = true) :
    ∃ s2 r, handleRequestFn s cid now req = some (s2, r) ∧
      respKind r = reqKind req ∧
      respSuccess r = reqSucceeds s cid now req := by
  cases req with
  | connect name => exact ⟨_, _, rfl, rfl, rfl⟩
  | heartbeat => exact ⟨_, _, rfl, rfl, rfl⟩
  | quitLobby => exact ⟨_, _, rfl, rfl, rfl⟩
  | disconnect =>
    have hnp := disconnect_no_panic_of_wf s cid hwf
    cases ho : (disconnectFn s cid).2 with
    | ok =>
      exact ⟨(disconnectFn s cid).1, .disconnect true,
        by simp [handleRequestFn, ho], rfl,
        by simp [respSuccess, reqSucceeds, ho]⟩
    | notFound =>
      exact ⟨(disconnectFn s cid).1, .disconnect false,
        by simp [handleRequestFn, ho], rfl,
        by simp [respSuccess, reqSucceeds, ho]⟩
    | panicked => exact absurd ho hnp
  | createLobby =>
    cases ho : (createLobbyFn s cid).2
    case ok =>
      exact ⟨(createLobbyFn s cid).1, .createLobby true (some s.lobbies.next_id),
        by simp [handleRequestFn, ho], rfl,
        by simp [respSuccess, reqSucceeds, ho]⟩
    all_goals
      exact ⟨(createLobbyFn s cid).1, .createLobby false none,
        by simp [handleRequestFn, ho], rfl,
        by simp [respSuccess, reqSucceeds, ho]⟩
  | joinLobby lid =>
    cases ho : (joinLobbyFn s cid lid).2
    case ok =>
      exact ⟨(joinLobbyFn s cid lid).1, .joinLobby true (some lid),
        by simp [handleRequestFn, ho], rfl,
        by simp [respSuccess, reqSucceeds, ho]⟩
    all_goals
      exact ⟨(joinLobbyFn s cid lid).1, .joinLobby false none,
        by simp [handleRequestFn, ho], rfl,
        by simp [respSuccess, reqSucceeds, ho]⟩

/-- C4 witness: a `Disconnect` request from the never-connected identity 0
on the fresh server gets the matching `Disconnect{success:false}` response
(failure does not go unanswered). -/
theorem dispatcher_always_responds_witness :
    ∃ s2 r, handleRequestFn initState 0 0 Request.disconnect = some (s2, r) ∧
      respKind r = reqKind Request.disconnect ∧
      respSuccess r = reqSucceeds initState 0 0 Request.disconnect :=
  dispatcher_always_responds initState 0 0 Request.disconnect (by decide)

theorem eraseA_idem {α : Type} (k : Nat) (l : List (Nat × α)) :
    eraseA k (eraseA k l) = eraseA k l := by
  induction l with
  | nil => rfl
  | cons e rest ih =>
    by_cases h : e.1 = k
    · simp [eraseA, h, ih]
    · simp [eraseA, h, ih]

theorem mem_eraseA_of_ne {α : Type} {e : Nat × α} {k : Nat}
    {l : List (Nat × α)} (he : e ∈ l) (hne : e.1 ≠ k) : e ∈ eraseA k l := by
  induction l with
  | nil => cases he
  | cons a rest ih =>
    rcases List.mem_cons.1 he with rfl | hin
    · simp only [eraseA, if_neg hne]
      exact List.mem_cons_self _ _
    · by_cases ha : a.1 = k
      · simp only [eraseA, if_pos ha]
        exact ih hin
      · simp only [eraseA, if_neg ha]
        exact List.mem_cons_of_mem _ (ih hin)

theorem length_eraseA_le {α : Type} (k : Nat) (l : List (Nat × α)) :
    (eraseA k l).length ≤ l.length := by
  induction l with
  | nil => simp [eraseA]
  | cons b r ihr =>
    by_cases hb : b.1 = k
    · simp only [eraseA, if_pos hb, List.length_cons]
      omega
    · simp only [eraseA, if_neg hb, List.length_cons]
      omega

theorem length_eraseA_lt {α : Type} {k : Nat} {v : α} {l : List (Nat × α)}
    (h : (k, v) ∈ l) : (eraseA k l).length < l.length := by
  induction l with
  | nil => cases h
  | cons a rest ih =>
    rcases List.mem_cons.1 h with heq | hin
    · have ha : a.1 = k := by rw [← heq]
      simp only [eraseA, if_pos ha, List.length_cons]
      have := length_eraseA_le k rest
      omega
    · by_cases ha : a.1 = k
      · simp only [eraseA, if_pos ha, List.length_cons]
        have := ih hin
        omega
      · simp only [eraseA, if_neg ha, List.length_cons]
        have := ih hin
        omega

theorem peekEarliest_none {l : List (Nat × Nat)}
    (h : peekEarliest l = none) : l = [] := by
  cases l with
  | nil => rfl
  | cons a rest =>
    simp only [peekEarliest] at h
    cases hp : peekEarliest rest with
    | none => simp [hp] at h
    | some m0 =>
      simp only [hp] at h
      split at h <;> cases h

theorem peekEarliest_mem {l : List (Nat × Nat)} {m : Nat × Nat}
    (h : peekEarliest l = some m) : m ∈ l := by
  revert h
  induction l generalizing m with
  | nil => intro h; cases h
  | cons a rest ih =>
    intro h
    simp only [peekEarliest] at h
    cases hp : peekEarliest rest with
    | none =>
      simp only [hp] at h
      injection h with h
      subst h
      exact List.mem_cons_self _ _
    | some m0 =>
      simp only [hp] at h
      by_cases hle : a.2 ≤ m0.2
      · rw [if_pos hle] at h
        injection h with h
        subst h
        exact List.mem_cons_self _ _
      · rw [if_neg hle] at h
        injection h with h
        subst h
        exact List.mem_cons_of_mem _ (ih hp)

theorem peekEarliest_min {l : List (Nat × Nat)} {m : Nat × Nat}
    (h : peekEarliest l = some m) : ∀ e ∈ l, m.2 ≤ e.2 := by
  revert h
  induction l generalizing m with
  | nil => intro h; cases h
  | cons a rest ih =>
    intro h e he
    simp only [peekEarliest] at h
    cases hp : peekEarliest rest with
    | none =>
      simp only [hp] at h
      injection h with h
      subst h
      have hnil := peekEarliest_none hp
      subst hnil
      rcases List.mem_cons.1 he with rfl | hin
      · exact le_rfl
      · cases hin
    | some m0 =>
      simp only [hp] at h
      by_cases hle : a.2 ≤ m0.2
      · rw [if_pos hle] at h
        injection h with h
        subst h
        rcases List.mem_cons.1 he with rfl | hin
        · exact le_rfl
        · exact le_trans hle (ih hp e hin)
      · rw [if_neg hle] at h
        injection h with h
        subst h
        rcases List.mem_cons.1 he with rfl | hin
        · omega
        · exact ih hp e hin

/-- Helper: the game branch of disconnect never touches the timeout queue. -/
theorem disconnectGame_timeouts (t : ServerState) (p : Player) (cid : Nat) :
    (disconnectGame t p cid).1.timeouts = t.timeouts := by
  cases hgid : p.game_id with
  | none => simp [disconnectGame, hgid]
  | some gid =>
    cases hfg : findA gid t.games with
    | none => simp [disconnectGame, hgid, hfg]
    | some parts => simp [disconnectGame, hgid, hfg]

/-- Helper: the timeout queue after a disconnect is the original one with at
most the disconnecting identity's entry removed. -/
theorem disconnectFn_timeouts (s : ServerState) (c : Nat) :
    (disconnectFn s c).1.timeouts = s.timeouts ∨
    (disconnectFn s c).1.timeouts = eraseA c s.timeouts := by
  cases hfp : findA c s.players with
  | none => exact Or.inl (by simp [disconnectFn, hfp])
  | some p =>
    right
    cases hlid : p.lobby_id with
    | none =>
      simp only [disconnectFn, hfp, hlid]
      rw [disconnectGame_timeouts]
    | some lid =>
      cases hfl : findA lid s.lobbies.map with
      | none => simp [disconnectFn, hfp, hlid, hfl]
      | some lob =>
        simp only [disconnectFn, hfp, hlid, hfl]
        rw [disconnectGame_timeouts]
        rfl

/-- Helper: the player map after a disconnect is the original one, or the
original one with the identity erased and possibly one lobby-membership
field cleared. -/
theorem disconnectFn_players_shape (s : ServerState) (c : Nat) :
    (disconnectFn s c).1.players = s.players ∨
    (disconnectFn s c).1.players = eraseA c s.players ∨
    (disconnectFn s c).1.players =
      updateA c (fun p => { p with lobby_id := none }) (eraseA c s.players) := by
  cases hfp : findA c s.players with
  | none => exact Or.inl (by simp [disconnectFn, hfp])
  | some p =>
    cases hlid : p.lobby_id with
    | none =>
      refine Or.inr (Or.inl ?_)
      simp only [disconnectFn, hfp, hlid]
      rw [disconnectGame_players]
    | some lid =>
      cases hfl : findA lid s.lobbies.map with
      | none => exact Or.inr (Or.inl (by simp [disconnectFn, hfp, hlid, hfl]))
      | some lob =>
        refine Or.inr (Or.inr ?_)
        simp only [disconnectFn, hfp, hlid, hfl]
        rw [disconnectGame_players]
        rfl

theorem findA_eraseA_none {α : Type} {k c : Nat} {l : List (Nat × α)}
    (h : findA k l = none) : findA k (eraseA c l) = none := by
  by_cases hkc : k = c
  · subst hkc
    exact findA_eraseA_self k l
  · rw [findA_eraseA_ne hkc]
    exact h

/-- Helper: a disconnect for identity `c` leaves identity `c` itself without
a player record, whatever branch it takes. -/
theorem disconnectFn_self_removed (s : ServerState) (c : Nat) :
    findA c (disconnectFn s c).1.players = none := by
  cases hfp : findA c s.players with
  | none =>
    have h : (disconnectFn s c).1 = s := by simp [disconnectFn, hfp]
    rw [h, hfp]
  | some p =>
    cases hlid : p.lobby_id with
    | none =>
      simp only [disconnectFn, hfp, hlid]
      rw [disconnectGame_players]
      exact findA_eraseA_self c s.players
    | some lid =>
      cases hfl : findA lid s.lobbies.map with
      | none =>
        simp only [disconnectFn, hfp, hlid, hfl]
        exact findA_eraseA_self c s.players
      | some lob =>
        simp only [disconnectFn, hfp, hlid, hfl]
        rw [disconnectGame_players]
        rw [(removeMember_spec
          { s with players := eraseA c s.players,
                   timeouts := eraseA c s.timeouts } lid lob c).2.2.1]
        simp [findA_eraseA_self]

/-- Helper: identities absent from the player map and timeout queue stay
absent across a disconnect of any identity. -/
theorem disconnectFn_preserves_none (s : ServerState) (c k : Nat)
    (hT : findA k s.timeouts = none) (hP : findA k s.players = none) :
    findA k (disconnectFn s c).1.timeouts = none ∧
    findA k (disconnectFn s c).1.players = none := by
  constructor
  · rcases disconnectFn_timeouts s c with h | h <;> rw [h]
    · exact hT
    · exact findA_eraseA_none hT
  · rcases disconnectFn_players_shape s c with h | h | h <;> rw [h]
    · exact hP
    · exact findA_eraseA_none hP
    · by_cases hkc : k = c
      · subst hkc
        rw [findA_updateA_self, findA_eraseA_self]
        rfl
      · rw [findA_updateA_ne hkc, findA_eraseA_ne hkc]
        exact hP

/-- Helper: once an identity is gone from both the queue and the player map,
the rest of the sweep never brings it back. -/
theorem sweepAux_preserves_none :
    ∀ (fuel : Nat) (s : ServerState) (now thr k : Nat),
      findA k s.timeouts = none → findA k s.players = none →
      findA k (sweepAux fuel s now thr).timeouts = none ∧
      findA k (sweepAux fuel s now thr).players = none := by
  intro fuel
  induction fuel with
  | zero => intro s now thr k hT hP; exact ⟨hT, hP⟩
  | succ n ih =>
    intro s now thr k hT hP
    cases hpk : peekEarliest s.timeouts with
    | none => simpa [sweepAux, hpk] using ⟨hT, hP⟩
    | some m =>
      obtain ⟨c0, t0⟩ := m
      by_cases hstale : t0 + thr < now
      · simp only [sweepAux, hpk, if_pos hstale]
        obtain ⟨hT1, hP1⟩ := disconnectFn_preserves_none s c0 k hT hP
        exact ih _ now thr k (findA_eraseA_none hT1) hP1
      · simpa [sweepAux, hpk, if_neg hstale] using ⟨hT, hP⟩

/-- Helper: one armed sweep step always leaves the queue strictly smaller:
whatever the disconnect did, the peeked identity's entry is erased. -/
theorem sweep_step_timeouts (s : ServerState) (c0 : Nat) :
    eraseA c0 (disconnectFn s c0).1.timeouts = eraseA c0 s.timeouts := by
  rcases disconnectFn_timeouts s c0 with h | h <;> rw [h]
  exact eraseA_idem c0 s.timeouts

/-- Helper: the sweep evicts every identity whose entry is stale, by
induction on the fuel bounding the queue length. -/
theorem sweepAux_removes_stale :
    ∀ (fuel : Nat) (s : ServerState) (now thr cid ts : Nat),
      s.timeouts.length ≤ fuel →
      (cid, ts) ∈ s.timeouts → ts + thr < now →
      findA cid (sweepAux fuel s now thr).timeouts = none ∧
      findA cid (sweepAux fuel s now thr).players = none := by
  intro fuel
  induction fuel with
  | zero =>
    intro s now thr cid ts hlen hmem _
    rw [List.length_eq_zero.1 (Nat.le_zero.1 hlen)] at hmem
    cases hmem
  | succ n ih =>
    intro s now thr cid ts hlen hmem hstale
    cases hpk : peekEarliest s.timeouts with
    | none =>
      rw [peekEarliest_none hpk] at hmem
      cases hmem
    | some m =>
      obtain ⟨c0, t0⟩ := m
      have hmin : t0 ≤ ts := peekEarliest_min hpk (cid, ts) hmem
      have hst0 : t0 + thr < now := by omega
      simp only [sweepAux, hpk, if_pos hst0]
      have hmem0 : (c0, t0) ∈ s.timeouts := peekEarliest_mem hpk
      have hlen2 :
          (eraseA c0 (disconnectFn s c0).1.timeouts).length ≤ n := by
        rw [sweep_step_timeouts]
        have := length_eraseA_lt hmem0
        omega
      by_cases hc : cid = c0
      · subst hc
        have hT2 : findA cid
            (eraseA cid (disconnectFn s cid).1.timeouts) = none :=
          findA_eraseA_self _ _
        have hP2 : findA cid (disconnectFn s cid).1.players = none :=
          disconnectFn_self_removed s cid
        exact sweepAux_preserves_none n _ now thr cid hT2 hP2
      · have hmem2 : (cid, ts) ∈
            eraseA c0 (disconnectFn s c0).1.timeouts := by
          rw [sweep_step_timeouts]
          exact mem_eraseA_of_ne hmem hc
        exact ih _ now thr cid ts hlen2 hmem2 hstale

/-- C7: any identity whose last heartbeat is older than the timeout
threshold at the time a sweep pass runs is disconnected by that pass —
through `disconnectFn`, the same path as an explicit disconnect — leaving it
neither tracked nor registered.  Since the sweep runs once per sweep
interval, an identity stale at instant `t` is gone by `t + interval`, the
bound the specification states. -/
theorem stale_identity_swept_out (s : ServerState) (now thr cid ts : Nat)
    (hmem : (cid, ts) ∈ s.timeouts) (hstale : ts + thr < now) :
    findA cid (sweep s now thr).timeouts = none ∧
    findA cid (sweep s now thr).players = none :=
  sweepAux_removes_stale s.timeouts.length s now thr cid ts le_rfl hmem hstale

/-- C7 witness: identity 0 heart-beat at instant 2, threshold 5, sweep at
instant 8 > 2 + 5: the sweep evicts identity 0 from the queue and the player
registry. -/
theorem stale_identity_swept_out_witness :
    findA 0 (sweep ⟨[(0, ⟨0, "a", none, none⟩)], [(0, 2)], ⟨0, []⟩, [], 0⟩
      8 5).timeouts = none ∧
    findA 0 (sweep ⟨[(0, ⟨0, "a", none, none⟩)], [(0, 2)], ⟨0, []⟩, [], 0⟩
      8 5).players = none :=
  stale_identity_swept_out
    ⟨[(0, ⟨0, "a", none, none⟩)], [(0, 2)], ⟨0, []⟩, [], 0⟩ 8 5 0 2
    (by decide) (by decide)

end LetterLegend
